import Mathlib

/-!
Verification of the resilience / cache-aside layer of the redis-helper
library (src/index.js) against its natural-language specification.

The embedding is shallow: JavaScript values handled by the library are
modelled by the inductive type `Json` (numbers are modelled as integers;
`undefined` is modelled as `Option.none` at the interface of functions
that distinguish it from `null`).  `JSON.stringify` / `JSON.parse` are
modelled by the executable `stringify` / `parseJsonText` below.  The
module-level mutable state of src/index.js (circuit-breaker flag,
failure counter, pending recovery timer, client readiness) is modelled
by the record `RedisState`, and each exported operation becomes a pure
function from that state (plus an oracle describing the backing-store
call outcomes) to a result together with the successor state.
-/

namespace RedisHelper

/-- JavaScript values as round-tripped by the library.  Numbers are
modelled as integers. -/
inductive Json : Type where
  | jNull : Json
  | jBool (b : Bool) : Json
  | jNum (n : Int) : Json
  | jStr (s : String) : Json
  | jArr (elems : List Json) : Json
  | jObj (fields : List (String × Json)) : Json

open Json

/-- Decimal digit to its character, as produced by JS number printing. -/
def digitChar (d : Nat) : Char := Char.ofNat (48 + d)

/-- Decimal printing of a natural number (model of JS `String(n)` for
non-negative integers). -/
def natToChars (m : Nat) : List Char :=
  if m = 0 then ['0'] else ((Nat.digits 10 m).reverse.map digitChar)

/-- Decimal printing of an integer. -/
def intToChars (n : Int) : List Char :=
  if n < 0 then '-' :: natToChars n.natAbs else natToChars n.toNat

/-- Hexadecimal digit character (lowercase), as emitted by
`JSON.stringify` for control-character escapes. -/
def hexDigitChar (d : Nat) : Char :=
  Char.ofNat (if d < 10 then 48 + d else 87 + d)

/-- The escape sequence `JSON.stringify` emits for one character of a
string: quote and backslash are escaped, the five named control
characters use their short escapes, other control characters use a
`\u00XX` escape, everything else passes through. -/
def escapeChar (c : Char) : List Char :=
  if c = '"' then ['\\', '"']
  else if c = '\\' then ['\\', '\\']
  else if c.toNat = 8 then ['\\', 'b']
  else if c.toNat = 9 then ['\\', 't']
  else if c.toNat = 10 then ['\\', 'n']
  else if c.toNat = 12 then ['\\', 'f']
  else if c.toNat = 13 then ['\\', 'r']
  else if c.toNat < 32 then
    ['\\', 'u', '0', '0', hexDigitChar (c.toNat / 16), hexDigitChar (c.toNat % 16)]
  else [c]

/-- Escape every character of a string body. -/
def escapeList : List Char → List Char
  | [] => []
  | c :: cs => escapeChar c ++ escapeList cs

/-- A JSON string literal: quote, escaped body, quote. -/
def quoteChars (s : String) : List Char :=
  '"' :: (escapeList s.data ++ ['"'])

mutual
/-- Model of `JSON.stringify` on the value domain `Json`, producing the
character list of the serialization. -/
def stringifyChars : Json → List Char
  | jNull => ['n', 'u', 'l', 'l']
  | jBool true => ['t', 'r', 'u', 'e']
  | jBool false => ['f', 'a', 'l', 's', 'e']
  | jNum n => intToChars n
  | jStr s => quoteChars s
  | jArr es => '[' :: (stringifyElems es ++ [']'])
  | jObj fs => '\x7b' :: (stringifyFields fs ++ ['\x7d'])

/-- Comma-separated serialization of array elements. -/
def stringifyElems : List Json → List Char
  | [] => []
  | [v] => stringifyChars v
  | v :: w :: vs => stringifyChars v ++ ',' :: stringifyElems (w :: vs)

/-- Comma-separated serialization of object fields. -/
def stringifyFields : List (String × Json) → List Char
  | [] => []
  | [(k, v)] => quoteChars k ++ ':' :: stringifyChars v
  | (k, v) :: f :: fs =>
      quoteChars k ++ ':' :: stringifyChars v ++ ',' :: stringifyFields (f :: fs)
end

/-- Model of `JSON.stringify` producing a string. -/
def stringify (v : Json) : String := String.mk (stringifyChars v)

/-- JSON whitespace. -/
def isWs (c : Char) : Bool := c = ' ' || c = '\t' || c = '\n' || c = '\r'

/-- Skip leading JSON whitespace. -/
def skipWs : List Char → List Char
  | [] => []
  | c :: cs => if isWs c then skipWs cs else c :: cs

/-- ASCII decimal digit test. -/
def isDigitChar (c : Char) : Bool := 48 ≤ c.toNat && c.toNat ≤ 57

/-- Split off a maximal run of leading decimal digits. -/
def takeDigits : List Char → (List Char × List Char)
  | [] => ([], [])
  | c :: cs =>
    if isDigitChar c then
      let p := takeDigits cs
      (c :: p.1, p.2)
    else ([], c :: cs)

/-- Value of a digit run, most significant digit first. -/
def digitsToNat (ds : List Char) : Nat :=
  ds.foldl (fun a c => 10 * a + (c.toNat - 48)) 0

/-- Value of one hexadecimal digit character, if it is one. -/
def parseHexDigit (c : Char) : Option Nat :=
  if 48 ≤ c.toNat ∧ c.toNat ≤ 57 then some (c.toNat - 48)
  else if 97 ≤ c.toNat ∧ c.toNat ≤ 102 then some (c.toNat - 87)
  else if 65 ≤ c.toNat ∧ c.toNat ≤ 70 then some (c.toNat - 55)
  else none

/-- Decode the character after a backslash in a JSON string literal,
returning the denoted character and the remaining input. -/
def decodeEscape : List Char → Option (Char × List Char)
  | [] => none
  | e :: cs =>
    if e = '"' then some ('"', cs)
    else if e = '\\' then some ('\\', cs)
    else if e = '/' then some ('/', cs)
    else if e = 'b' then some (Char.ofNat 8, cs)
    else if e = 'f' then some (Char.ofNat 12, cs)
    else if e = 'n' then some (Char.ofNat 10, cs)
    else if e = 'r' then some (Char.ofNat 13, cs)
    else if e = 't' then some (Char.ofNat 9, cs)
    else if e = 'u' then
      match cs with
      | h1 :: h2 :: h3 :: h4 :: rest =>
        match parseHexDigit h1, parseHexDigit h2, parseHexDigit h3, parseHexDigit h4 with
        | some a, some b, some c, some d =>
            some (Char.ofNat (((a * 16 + b) * 16 + c) * 16 + d), rest)
        | _, _, _, _ => none
      | _ => none
    else none

/-- Parse the body of a JSON string literal (after the opening quote),
up to and including the closing quote.  Fuel-indexed; one unit of fuel
per decoded character suffices. -/
def parseStrBody : Nat → List Char → Option (List Char × List Char)
  | 0, _ => none
  | Nat.succ fuel, input =>
    match input with
    | [] => none
    | c :: cs =>
      if c = '"' then some ([], cs)
      else if c = '\\' then
        match decodeEscape cs with
        | none => none
        | some (ch, rest) =>
          match parseStrBody fuel rest with
          | some (out, r) => some (ch :: out, r)
          | none => none
      else
        match parseStrBody fuel cs with
        | some (out, r) => some (c :: out, r)
        | none => none

/-- Boolean head test on a character list. -/
def headIs : List Char → Char → Bool
  | c :: _, e => c = e
  | [], _ => false

/-- Match an expected literal character sequence. -/
def expectChars : List Char → List Char → Option (List Char)
  | [], input => some input
  | e :: es, input =>
    match input with
    | c :: cs => if c = e then expectChars es cs else none
    | [] => none

mutual
/-- Model of the value grammar of `JSON.parse`: parse one JSON value
(after skipping whitespace), returning it with the remaining input.
Numeric literals are restricted to (optionally negated) integers, in
line with the integer number model. -/
def parseVal : Nat → List Char → Option (Json × List Char)
  | 0, _ => none
  | Nat.succ fuel, input =>
    match skipWs input with
    | [] => none
    | c :: cs =>
      if c = 'n' then
        match expectChars ['u', 'l', 'l'] cs with
        | some rest => some (jNull, rest)
        | none => none
      else if c = 't' then
        match expectChars ['r', 'u', 'e'] cs with
        | some rest => some (jBool true, rest)
        | none => none
      else if c = 'f' then
        match expectChars ['a', 'l', 's', 'e'] cs with
        | some rest => some (jBool false, rest)
        | none => none
      else if c = '"' then
        match parseStrBody fuel cs with
        | some (out, rest) => some (jStr (String.mk out), rest)
        | none => none
      else if c = '-' then
        match takeDigits cs with
        | ([], _) => none
        | (ds, rest) => some (jNum (-(digitsToNat ds : Int)), rest)
      else if c = '[' then
        let cs1 := skipWs cs
        if headIs cs1 ']' then some (jArr [], cs1.tail)
        else
          match parseElems fuel cs with
          | some (es, rest) => some (jArr es, rest)
          | none => none
      else if c = '\x7b' then
        let cs1 := skipWs cs
        if headIs cs1 '\x7d' then some (jObj [], cs1.tail)
        else
          match parseFields fuel cs with
          | some (fs, rest) => some (jObj fs, rest)
          | none => none
      else if isDigitChar c then
        match takeDigits (c :: cs) with
        | (ds, rest) => some (jNum (digitsToNat ds : Int), rest)
      else none

/-- Parse one or more comma-separated array elements, up to and
including the closing bracket. -/
def parseElems : Nat → List Char → Option (List Json × List Char)
  | 0, _ => none
  | Nat.succ fuel, input =>
    match parseVal fuel input with
    | none => none
    | some (v, rest) =>
      let r1 := skipWs rest
      if headIs r1 ',' then
        match parseElems fuel r1.tail with
        | some (vs, r) => some (v :: vs, r)
        | none => none
      else if headIs r1 ']' then some ([v], r1.tail)
      else none

/-- Parse one or more comma-separated object fields, up to and
including the closing brace. -/
def parseFields : Nat → List Char → Option (List (String × Json) × List Char)
  | 0, _ => none
  | Nat.succ fuel, input =>
    let i1 := skipWs input
    if headIs i1 '"' then
      match parseStrBody fuel i1.tail with
      | none => none
      | some (k, rest) =>
        let r1 := skipWs rest
        if headIs r1 ':' then
          match parseVal fuel r1.tail with
          | none => none
          | some (v, rest2) =>
            let r2 := skipWs rest2
            if headIs r2 ',' then
              match parseFields fuel r2.tail with
              | some (fs, r) => some ((String.mk k, v) :: fs, r)
              | none => none
            else if headIs r2 '\x7d' then some ([(String.mk k, v)], r2.tail)
            else none
        else none
    else none
end

/-- Model of `JSON.parse` on a character list: parse one value and
require that only whitespace remains. -/
def parseJsonChars (cs : List Char) : Option Json :=
  match parseVal (cs.length + 1) cs with
  | some (v, rest) => if skipWs rest = [] then some v else none
  | none => none

/-- Model of `JSON.parse` on a string, returning `none` where
`JSON.parse` would throw a `SyntaxError`. -/
def parseJsonText (s : String) : Option Json := parseJsonChars s.data

/-- The JS test `value === null` on a `Json` value. -/
def Json.isNull : Json → Bool
  | jNull => true
  | _ => false

/-- The value-to-stored-string conversion used by `setData` and
`publish` in src/index.js:
`typeof value === 'string' ? value : JSON.stringify(value)`. -/
def encode (value : Json) : String :=
  match value with
  | jStr s => s
  | v => stringify v

/-- The stored-string-to-value conversion used by `getData` in
src/index.js for a non-empty stored string: when `parseJson` is set,
`try { return JSON.parse(value); } catch { return value; }`, otherwise
the raw string. -/
def decode (raw : String) (parseJson : Bool) : Json :=
  if parseJson then
    match parseJsonText raw with
    | some j => j
    | none => jStr raw
  else jStr raw

/-! ## Round-trip facts about the JSON codec model -/

/-- Head of the rest of the input after a number: no digit may follow. -/
def noDigitHead : List Char → Bool
  | [] => true
  | c :: _ => !isDigitChar c

theorem stringMk_data (s : String) : String.mk s.data = s := rfl

theorem isDigitChar_iff {c : Char} :
    isDigitChar c = true ↔ 48 ≤ c.toNat ∧ c.toNat ≤ 57 := by
  simp [isDigitChar]

theorem ne_of_digit {c : Char} (h : isDigitChar c = true) (d : Char)
    (hd : ¬(48 ≤ d.toNat ∧ d.toNat ≤ 57)) : c ≠ d :=
  fun e => hd (e ▸ isDigitChar_iff.mp h)

theorem not_ws_of_digit {c : Char} (h : isDigitChar c = true) : isWs c = false := by
  have h1 : c ≠ ' ' := ne_of_digit h _ (by decide)
  have h2 : c ≠ '\t' := ne_of_digit h _ (by decide)
  have h3 : c ≠ '\n' := ne_of_digit h _ (by decide)
  have h4 : c ≠ '\r' := ne_of_digit h _ (by decide)
  simp [isWs, h1, h2, h3, h4]

theorem skipWs_cons_of_not_ws {c : Char} (cs : List Char) (h : isWs c = false) :
    skipWs (c :: cs) = c :: cs := by
  simp [skipWs, h]

theorem digitChar_toNat {d : Nat} (h : d < 10) : (digitChar d).toNat = 48 + d := by
  interval_cases d <;> decide

theorem isDigitChar_digitChar {d : Nat} (h : d < 10) :
    isDigitChar (digitChar d) = true := by
  interval_cases d <;> decide

theorem natToChars_cons (m : Nat) :
    ∃ c cs, natToChars m = c :: cs ∧ isDigitChar c = true := by
  by_cases hm : m = 0
  · exact ⟨'0', [], by simp [natToChars, hm], by decide⟩
  · have hne : (Nat.digits 10 m).reverse.map digitChar ≠ [] := by
      simp [Nat.digits_ne_nil_iff_ne_zero, hm]
    obtain ⟨c, cs, hcs⟩ := List.exists_cons_of_ne_nil hne
    refine ⟨c, cs, by simp [natToChars, hm, hcs], ?_⟩
    have hc : c ∈ (Nat.digits 10 m).reverse.map digitChar := by
      simp [hcs]
    obtain ⟨d, hd, hdc⟩ := List.mem_map.mp hc
    have : d < 10 := Nat.digits_lt_base (by norm_num) (List.mem_reverse.mp hd)
    exact hdc ▸ isDigitChar_digitChar this

theorem natToChars_all_digits (m : Nat) :
    ∀ c ∈ natToChars m, isDigitChar c = true := by
  intro c hc
  by_cases hm : m = 0
  · simp [natToChars, hm] at hc
    subst hc; decide
  · simp only [natToChars, hm, if_neg, ite_false] at hc
    obtain ⟨d, hd, hdc⟩ := List.mem_map.mp hc
    have : d < 10 := Nat.digits_lt_base (by norm_num) (List.mem_reverse.mp hd)
    exact hdc ▸ isDigitChar_digitChar this

theorem takeDigits_append (ds rest : List Char)
    (hd : ∀ c ∈ ds, isDigitChar c = true) (hr : noDigitHead rest = true) :
    takeDigits (ds ++ rest) = (ds, rest) := by
  induction ds with
  | nil =>
    cases rest with
    | nil => rfl
    | cons c rest' =>
      have : isDigitChar c = false := by
        simpa [noDigitHead] using hr
      simp [takeDigits, this]
  | cons c ds ih =>
    have hc : isDigitChar c = true := hd c (by simp)
    have := ih (fun x hx => hd x (by simp [hx]))
    simp [takeDigits, hc, this]

theorem foldl_digits_reverse (L : List Nat) (a : Nat) :
    L.reverse.foldl (fun x d => 10 * x + d) a = a * 10 ^ L.length + Nat.ofDigits 10 L := by
  induction L generalizing a with
  | nil => simp
  | cons d L ih =>
    simp only [List.reverse_cons, List.foldl_append, List.foldl_cons, List.foldl_nil,
      ih, List.length_cons, Nat.ofDigits_cons, pow_succ]
    ring

theorem foldl_map_digitChar (l : List Nat) (h : ∀ d ∈ l, d < 10) (a : Nat) :
    (l.map digitChar).foldl (fun x c => 10 * x + (c.toNat - 48)) a =
      l.foldl (fun x d => 10 * x + d) a := by
  induction l generalizing a with
  | nil => rfl
  | cons d l ih =>
    simp only [List.map_cons, List.foldl_cons]
    rw [digitChar_toNat (h d (by simp)), Nat.add_sub_cancel_left]
    exact ih (fun x hx => h x (by simp [hx])) _

theorem digitsToNat_natToChars (m : Nat) : digitsToNat (natToChars m) = m := by
  by_cases hm : m = 0
  · subst hm; decide
  · unfold natToChars digitsToNat
    rw [if_neg hm]
    rw [foldl_map_digitChar _ (fun d hd =>
      Nat.digits_lt_base (by norm_num) (List.mem_reverse.mp hd)) 0]
    rw [foldl_digits_reverse]
    simp [Nat.ofDigits_digits]

theorem escapeChar_length_pos (c : Char) : 1 ≤ (escapeChar c).length := by
  unfold escapeChar
  repeat' split
  all_goals simp

theorem length_le_escapeList (cs : List Char) : cs.length ≤ (escapeList cs).length := by
  induction cs with
  | nil => simp [escapeList]
  | cons c cs ih =>
    simp only [escapeList, List.length_append, List.length_cons]
    have := escapeChar_length_pos c
    omega

theorem parseHexDigit_hexDigitChar {d : Nat} (h : d < 16) :
    parseHexDigit (hexDigitChar d) = some d := by
  interval_cases d <;> decide

theorem parseStrBody_escape (cs : List Char) : ∀ (fuel : Nat) (rest : List Char),
    cs.length < fuel →
    parseStrBody fuel (escapeList cs ++ '"' :: rest) = some (cs, rest) := by
  induction cs with
  | nil =>
    intro fuel rest hf
    cases fuel with
    | zero => omega
    | succ f => simp [escapeList, parseStrBody]
  | cons c cs ih =>
    intro fuel rest hf
    cases fuel with
    | zero => omega
    | succ f =>
      have hf' : cs.length < f := by
        simp only [List.length_cons] at hf; omega
      have hih := ih f rest hf'
      simp only [escapeList, List.append_assoc]
      by_cases h1 : c = '"'
      · subst h1
        simp [escapeChar, parseStrBody, decodeEscape, hih]
      by_cases h2 : c = '\\'
      · subst h2
        simp [escapeChar, parseStrBody, decodeEscape, hih]
      by_cases h3 : c.toNat = 8
      · have hc : Char.ofNat 8 = c := by rw [← h3, Char.ofNat_toNat]
        simp [escapeChar, h1, h2, h3, parseStrBody, decodeEscape, hih]
        exact hc
      by_cases h4 : c.toNat = 9
      · have hc : Char.ofNat 9 = c := by rw [← h4, Char.ofNat_toNat]
        simp [escapeChar, h1, h2, h3, h4, parseStrBody, decodeEscape, hih]
        exact hc
      by_cases h5 : c.toNat = 10
      · have hc : Char.ofNat 10 = c := by rw [← h5, Char.ofNat_toNat]
        simp [escapeChar, h1, h2, h3, h4, h5, parseStrBody, decodeEscape, hih]
        exact hc
      by_cases h6 : c.toNat = 12
      · have hc : Char.ofNat 12 = c := by rw [← h6, Char.ofNat_toNat]
        simp [escapeChar, h1, h2, h3, h4, h5, h6, parseStrBody, decodeEscape, hih]
        exact hc
      by_cases h7 : c.toNat = 13
      · have hc : Char.ofNat 13 = c := by rw [← h7, Char.ofNat_toNat]
        simp [escapeChar, h1, h2, h3, h4, h5, h6, h7, parseStrBody, decodeEscape, hih]
        exact hc
      by_cases h8 : c.toNat < 32
      · have hdiv : c.toNat / 16 < 16 := by omega
        have hmod : c.toNat % 16 < 16 := by omega
        have hc : Char.ofNat (c.toNat / 16 * 16 + c.toNat % 16) = c := by
          rw [show c.toNat / 16 * 16 + c.toNat % 16 = c.toNat by omega, Char.ofNat_toNat]
        have h0 : parseHexDigit '0' = some 0 := by decide
        simp [escapeChar, h1, h2, h3, h4, h5, h6, h7, h8, parseStrBody, decodeEscape,
          parseHexDigit_hexDigitChar hdiv, parseHexDigit_hexDigitChar hmod, h0, hih, hc]
      · simp [escapeChar, h1, h2, h3, h4, h5, h6, h7, h8, parseStrBody, hih]

theorem stringifyChars_head (v : Json) :
    ∃ c cs, stringifyChars v = c :: cs ∧ isWs c = false ∧ c ≠ ']' := by
  cases v with
  | jNull => exact ⟨'n', _, rfl, by decide, by decide⟩
  | jBool b =>
    cases b with
    | false => exact ⟨'f', _, rfl, by decide, by decide⟩
    | true => exact ⟨'t', _, rfl, by decide, by decide⟩
  | jNum n =>
    cases n with
    | ofNat m =>
      obtain ⟨c, cs, hcs, hc⟩ := natToChars_cons m
      have hnn : ¬((Int.ofNat m) < 0) := Int.not_lt.mpr (Int.ofNat_nonneg m)
      have hsc : stringifyChars (jNum (Int.ofNat m)) = natToChars m := by
        simp [stringifyChars, intToChars, hnn]
      exact ⟨c, cs, by rw [hsc, hcs], not_ws_of_digit hc, ne_of_digit hc _ (by decide)⟩
    | negSucc m =>
      refine ⟨'-', natToChars (m + 1), ?_, by decide, by decide⟩
      simp [stringifyChars, intToChars, Int.negSucc_lt_zero]
  | jStr s => exact ⟨'"', _, rfl, by decide, by decide⟩
  | jArr es => exact ⟨'[', _, rfl, by decide, by decide⟩
  | jObj fs => exact ⟨'\x7b', _, rfl, by decide, by decide⟩

theorem stringifyChars_length_pos (v : Json) : 1 ≤ (stringifyChars v).length := by
  obtain ⟨c, cs, h, _, _⟩ := stringifyChars_head v
  simp [h]

mutual
/-- Parsing inverts serialization: `parseVal` consumes exactly the
serialized form of any value and returns the value, provided enough
fuel and a remainder that does not start with a digit. -/
theorem parseVal_stringify (v : Json) (fuel : Nat) (rest : List Char)
    (hf : (stringifyChars v).length ≤ fuel) (hr : noDigitHead rest = true) :
    parseVal fuel (stringifyChars v ++ rest) = some (v, rest) :=
  match v, hf with
  | jNull, hf => by
    cases fuel with
    | zero => have := stringifyChars_length_pos jNull; omega
    | succ f => simp [stringifyChars, parseVal, skipWs, isWs, expectChars]
  | jBool true, hf => by
    cases fuel with
    | zero => have := stringifyChars_length_pos (jBool true); omega
    | succ f => simp [stringifyChars, parseVal, skipWs, isWs, expectChars]
  | jBool false, hf => by
    cases fuel with
    | zero => have := stringifyChars_length_pos (jBool false); omega
    | succ f => simp [stringifyChars, parseVal, skipWs, isWs, expectChars]
  | jNum n, hf => by
    cases fuel with
    | zero => have := stringifyChars_length_pos (jNum n); omega
    | succ f =>
      cases n with
      | ofNat m =>
        obtain ⟨c, cs, hcs, hcdig⟩ := natToChars_cons m
        have hnn : ¬((Int.ofNat m) < 0) := Int.not_lt.mpr (Int.ofNat_nonneg m)
        have hsc : stringifyChars (jNum (Int.ofNat m)) = natToChars m := by
          simp [stringifyChars, intToChars, hnn]
        have hn1 : c ≠ 'n' := ne_of_digit hcdig _ (by decide)
        have hn2 : c ≠ 't' := ne_of_digit hcdig _ (by decide)
        have hn3 : c ≠ 'f' := ne_of_digit hcdig _ (by decide)
        have hn4 : c ≠ '"' := ne_of_digit hcdig _ (by decide)
        have hn5 : c ≠ '-' := ne_of_digit hcdig _ (by decide)
        have hn6 : c ≠ '[' := ne_of_digit hcdig _ (by decide)
        have hn7 : c ≠ '\x7b' := ne_of_digit hcdig _ (by decide)
        rw [hsc, hcs, List.cons_append]
        simp only [parseVal, skipWs_cons_of_not_ws _ (not_ws_of_digit hcdig)]
        rw [if_neg hn1, if_neg hn2, if_neg hn3, if_neg hn4, if_neg hn5, if_neg hn6,
          if_neg hn7, if_pos hcdig]
        rw [← List.cons_append, ← hcs,
          takeDigits_append _ _ (natToChars_all_digits m) hr]
        simp [digitsToNat_natToChars]
      | negSucc m =>
        have hsc : stringifyChars (jNum (Int.negSucc m)) = '-' :: natToChars (m + 1) := by
          simp [stringifyChars, intToChars, Int.negSucc_lt_zero]
        obtain ⟨c, cs, hcs, hcdig⟩ := natToChars_cons (m + 1)
        rw [hsc, List.cons_append]
        simp only [parseVal, skipWs_cons_of_not_ws _ (by decide : isWs '-' = false)]
        simp only [if_true]
        rw [takeDigits_append _ _ (natToChars_all_digits (m + 1)) hr, hcs]
        have : digitsToNat (c :: cs) = m + 1 := by
          rw [← hcs, digitsToNat_natToChars]
        simp [this, Int.negSucc_eq]
  | jStr s, hf => by
    cases fuel with
    | zero => have := stringifyChars_length_pos (jStr s); omega
    | succ f =>
      have hlen : s.data.length < f := by
        have h1 := length_le_escapeList s.data
        simp only [stringifyChars, quoteChars, List.length_cons,
          List.length_append, List.length_singleton] at hf
        omega
      simp only [stringifyChars, quoteChars, List.cons_append, List.append_assoc,
        List.singleton_append]
      simp only [parseVal, skipWs_cons_of_not_ws _ (by decide : isWs '"' = false)]
      simp only [if_true, List.nil_append]
      rw [parseStrBody_escape s.data f rest hlen]
      simp [stringMk_data]
  | jArr [], hf => by
    cases fuel with
    | zero => have := stringifyChars_length_pos (jArr []); omega
    | succ f => simp [stringifyChars, stringifyElems, parseVal, skipWs, isWs, headIs]
  | jArr (v1 :: vs), hf => by
    cases fuel with
    | zero => have := stringifyChars_length_pos (jArr (v1 :: vs)); omega
    | succ f =>
      have hse : ∃ t, stringifyElems (v1 :: vs) = stringifyChars v1 ++ t := by
        cases vs with
        | nil => exact ⟨[], by simp [stringifyElems]⟩
        | cons w ws => exact ⟨',' :: stringifyElems (w :: ws), rfl⟩
      obtain ⟨t, ht⟩ := hse
      obtain ⟨c0, cs0, hc0, hws0, hne0⟩ := stringifyChars_head v1
      have hflen : (stringifyElems (v1 :: vs)).length + 1 ≤ f := by
        simp only [stringifyChars, List.length_cons, List.length_append,
          List.length_singleton] at hf
        omega
      simp only [stringifyChars, List.cons_append, List.append_assoc,
        List.singleton_append]
      simp only [parseVal, skipWs_cons_of_not_ws _ (by decide : isWs '[' = false)]
      simp only [if_true, List.nil_append]
      have hskip : skipWs (stringifyElems (v1 :: vs) ++ ']' :: rest) =
          c0 :: (cs0 ++ t ++ ']' :: rest) := by
        rw [ht, hc0]
        simp only [List.cons_append, List.append_assoc]
        exact skipWs_cons_of_not_ws _ hws0
      rw [hskip]
      have hhead : headIs (c0 :: (cs0 ++ t ++ ']' :: rest)) ']' = false := by
        simp [headIs, hne0]
      rw [if_neg (by simp [hhead])]
      rw [parseElems_stringify (v1 :: vs) (by simp) f rest hflen]
      simp [headIs, hne0]
  | jObj [], hf => by
    cases fuel with
    | zero => have := stringifyChars_length_pos (jObj []); omega
    | succ f => simp [stringifyChars, stringifyFields, parseVal, skipWs, isWs, headIs]
  | jObj ((k, v1) :: gs), hf => by
    cases fuel with
    | zero => have := stringifyChars_length_pos (jObj ((k, v1) :: gs)); omega
    | succ f =>
      have hsf : ∃ t, stringifyFields ((k, v1) :: gs) = '"' :: t := by
        cases gs with
        | nil => exact ⟨_, rfl⟩
        | cons g gs1 => exact ⟨_, rfl⟩
      obtain ⟨t, ht⟩ := hsf
      have hflen : (stringifyFields ((k, v1) :: gs)).length + 1 ≤ f := by
        simp only [stringifyChars, List.length_cons, List.length_append,
          List.length_singleton] at hf
        omega
      simp only [stringifyChars, List.cons_append, List.append_assoc,
        List.singleton_append]
      simp only [parseVal, skipWs_cons_of_not_ws _ (by decide : isWs '\x7b' = false)]
      simp only [if_true, List.nil_append]
      have hskip : skipWs (stringifyFields ((k, v1) :: gs) ++ '\x7d' :: rest) =
          '"' :: (t ++ '\x7d' :: rest) := by
        rw [ht]
        simp only [List.cons_append]
        exact skipWs_cons_of_not_ws _ (by decide)
      rw [hskip]
      rw [if_neg (by simp [headIs])]
      rw [parseFields_stringify ((k, v1) :: gs) (by simp) f rest hflen]
      simp [headIs]
termination_by sizeOf v

/-- Parsing inverts serialization for a non-empty comma-separated
element list followed by the closing bracket. -/
theorem parseElems_stringify (vs : List Json) (hne : vs ≠ []) (fuel : Nat)
    (rest : List Char) (hf : (stringifyElems vs).length + 1 ≤ fuel) :
    parseElems fuel (stringifyElems vs ++ ']' :: rest) = some (vs, rest) := by
  match vs, hne with
  | v :: vs, _ =>
    cases fuel with
    | zero => omega
    | succ f =>
      cases vs with
      | nil =>
        have hlen : (stringifyChars v).length ≤ f := by
          simp only [stringifyElems, List.length_cons] at hf
          omega
        simp only [stringifyElems]
        simp only [parseElems]
        rw [parseVal_stringify v f (']' :: rest) hlen rfl]
        simp [skipWs, isWs, headIs]
      | cons w ws =>
        have hvpos := stringifyChars_length_pos v
        have hlen : (stringifyChars v).length ≤ f := by
          simp only [stringifyElems, List.length_append, List.length_cons] at hf
          omega
        have hlen2 : (stringifyElems (w :: ws)).length + 1 ≤ f := by
          simp only [stringifyElems, List.length_append, List.length_cons] at hf ⊢
          omega
        simp only [stringifyElems, List.cons_append, List.append_assoc]
        simp only [parseElems]
        rw [show stringifyChars v ++ ',' :: (stringifyElems (w :: ws) ++ ']' :: rest) =
          stringifyChars v ++ ',' :: stringifyElems (w :: ws) ++ ']' :: rest by
            simp [List.append_assoc]]
        rw [show stringifyChars v ++ ',' :: stringifyElems (w :: ws) ++ ']' :: rest =
          stringifyChars v ++ (',' :: (stringifyElems (w :: ws) ++ ']' :: rest)) by
            simp [List.append_assoc]]
        rw [parseVal_stringify v f (',' :: (stringifyElems (w :: ws) ++ ']' :: rest))
          hlen rfl]
        simp only [skipWs_cons_of_not_ws _ (by decide : isWs ',' = false)]
        rw [if_pos (by simp [headIs] : headIs
          (',' :: (stringifyElems (w :: ws) ++ ']' :: rest)) ',' = true)]
        simp only [List.tail_cons]
        rw [parseElems_stringify (w :: ws) (by simp) f rest hlen2]

termination_by sizeOf vs

/-- Parsing inverts serialization for a non-empty comma-separated field
list followed by the closing brace. -/
theorem parseFields_stringify (fs : List (String × Json)) (hne : fs ≠ [])
    (fuel : Nat) (rest : List Char)
    (hf : (stringifyFields fs).length + 1 ≤ fuel) :
    parseFields fuel (stringifyFields fs ++ '\x7d' :: rest) = some (fs, rest) := by
  match fs, hne with
  | (k, v) :: fs, _ =>
    cases fuel with
    | zero => omega
    | succ f =>
      cases fs with
      | nil =>
        have hke := length_le_escapeList k.data
        have hklen : k.data.length < f := by
          simp only [stringifyFields, quoteChars, List.length_cons,
            List.length_append, List.length_singleton] at hf
          omega
        have hvlen : (stringifyChars v).length ≤ f := by
          simp only [stringifyFields, quoteChars, List.length_cons,
            List.length_append, List.length_singleton] at hf
          omega
        simp only [stringifyFields, quoteChars, List.cons_append, List.append_assoc,
          List.singleton_append, List.nil_append]
        simp only [parseFields]
        rw [skipWs_cons_of_not_ws _ (by decide : isWs '"' = false)]
        rw [if_pos (by simp [headIs])]
        simp only [List.tail_cons]
        rw [parseStrBody_escape k.data f _ hklen]
        simp only [List.nil_append]
        simp only [skipWs_cons_of_not_ws _ (by decide : isWs ':' = false)]
        rw [if_pos (by simp [headIs] : headIs
          (':' :: (stringifyChars v ++ '\x7d' :: rest)) ':' = true)]
        simp only [List.tail_cons]
        rw [parseVal_stringify v f ('\x7d' :: rest) hvlen rfl]
        simp [skipWs, isWs, headIs, stringMk_data]
      | cons g gs =>
        have hke := length_le_escapeList k.data
        have hvpos := stringifyChars_length_pos v
        have hklen : k.data.length < f := by
          simp only [stringifyFields, quoteChars, List.length_cons,
            List.length_append, List.length_singleton] at hf
          omega
        have hvlen : (stringifyChars v).length ≤ f := by
          simp only [stringifyFields, quoteChars, List.length_cons,
            List.length_append, List.length_singleton] at hf
          omega
        have hglen : (stringifyFields (g :: gs)).length + 1 ≤ f := by
          simp only [stringifyFields, quoteChars, List.length_cons,
            List.length_append, List.length_singleton] at hf ⊢
          omega
        simp only [stringifyFields, quoteChars, List.cons_append, List.append_assoc,
          List.singleton_append, List.nil_append]
        simp only [parseFields]
        rw [skipWs_cons_of_not_ws _ (by decide : isWs '"' = false)]
        rw [if_pos (by simp [headIs])]
        simp only [List.tail_cons]
        rw [parseStrBody_escape k.data f _ hklen]
        simp only [List.nil_append]
        simp only [skipWs_cons_of_not_ws _ (by decide : isWs ':' = false)]
        rw [if_pos (by simp [headIs] : headIs (':' :: (stringifyChars v ++
          ',' :: (stringifyFields (g :: gs) ++ '\x7d' :: rest))) ':' = true)]
        simp only [List.tail_cons]
        rw [parseVal_stringify v f
          (',' :: (stringifyFields (g :: gs) ++ '\x7d' :: rest)) hvlen rfl]
        simp only [skipWs_cons_of_not_ws _ (by decide : isWs ',' = false)]
        rw [if_pos (by simp [headIs] : headIs (',' :: (stringifyFields (g :: gs) ++
          '\x7d' :: rest)) ',' = true)]
        simp only [List.tail_cons]
        rw [parseFields_stringify (g :: gs) (by simp) f rest hglen]
termination_by sizeOf fs
end

/-- Round trip at the string level: parsing the serialization of any
value yields the value back. -/
theorem parseJsonText_stringify (v : Json) : parseJsonText (stringify v) = some v := by
  unfold parseJsonText stringify parseJsonChars
  have h := parseVal_stringify v ((stringifyChars v).length + 1) [] (by omega) rfl
  rw [List.append_nil] at h
  rw [show (String.mk (stringifyChars v)).data = stringifyChars v from rfl, h]
  simp [skipWs]

/-! ## Circuit-breaker state and the module-level mutable state -/

/-- `FAILURE_THRESHOLD` from src/index.js: failures before the circuit
opens. -/
def FAILURE_THRESHOLD : Nat := 3

/-- `RECOVERY_TIME` from src/index.js: milliseconds before the opened
circuit closes again. -/
def RECOVERY_TIME : Nat := 30000

/-- The module-level mutable state of src/index.js relevant to the
resilience logic.  `clientReady` models `redisClient && redisClient.isReady`;
`pendingRecoveries` counts the scheduled `setTimeout` recovery timers
that have not fired yet. -/
structure RedisState : Type where
  clientReady : Bool
  isCircuitOpen : Bool
  failureCount : Nat
  pendingRecoveries : Nat
deriving Repr, DecidableEq

/-- `openCircuit` from src/index.js: if the circuit is not already
open, open it and schedule one recovery timer; otherwise do nothing. -/
def openCircuit (s : RedisState) : RedisState :=
  if s.isCircuitOpen = false then
    { s with isCircuitOpen := true, pendingRecoveries := s.pendingRecoveries + 1 }
  else s

/-- `isAvailable` from src/index.js:
`redisClient && redisClient.isReady && !isCircuitOpen`. -/
def isAvailable (s : RedisState) : Bool :=
  s.clientReady && !s.isCircuitOpen

/-- The body of the recovery `setTimeout` scheduled by `openCircuit`:
`isCircuitOpen = false; failureCount = 0;` (one pending timer fires). -/
def recoveryElapsed (s : RedisState) : RedisState :=
  { s with isCircuitOpen := false, failureCount := 0,
           pendingRecoveries := s.pendingRecoveries - 1 }

/-- The failure-recording code shared by every catch block in
src/index.js:
`failureCount++; if (failureCount >= FAILURE_THRESHOLD) openCircuit();`. -/
def recordFailure (s : RedisState) : RedisState :=
  let s1 := { s with failureCount := s.failureCount + 1 }
  if FAILURE_THRESHOLD ≤ s1.failureCount then openCircuit s1 else s1

/-- The initial breaker state of a freshly loaded module with a ready
client: circuit closed, zero failures, nothing scheduled. -/
def initState : RedisState :=
  { clientReady := true, isCircuitOpen := false, failureCount := 0,
    pendingRecoveries := 0 }

/-- `n` consecutive `recordFailure` events applied to a state. -/
def runFails (n : Nat) (s : RedisState) : RedisState :=
  match n with
  | 0 => s
  | Nat.succ m => recordFailure (runFails m s)

/-! ## Configuration, key prefixing, and the backing-store oracle -/

/-- The configuration fields the resilience core reads
(`currentConfig.keyPrefix` and `currentConfig.defaultTtl`). -/
structure RedisConfig : Type where
  keyPrefixStr : String
  defaultTtl : Nat

/-- `getKey` from src/index.js: physical key is the configured prefix
concatenated with the logical key. -/
def getKey (cfg : RedisConfig) (key : String) : String :=
  cfg.keyPrefixStr ++ key

/-- Store / transport errors are opaque; only their identity matters. -/
abbrev Err := String

/-- Oracle describing the outcome of each backing-store client call the
operations can make (the `redis` client methods used by src/index.js).
A `.error` outcome models the awaited promise rejecting. -/
structure StorePort : Type where
  get : String → Except Err (Option String)
  setEx : String → Nat → String → Except Err Unit
  set : String → String → Except Err Unit
  del : String → Except Err Nat
  existsRaw : String → Except Err Nat
  expire : String → Nat → Except Err Nat
  ttl : String → Except Err Int
  publishRaw : String → String → Except Err Nat
  subscribeRaw : String → Except Err Unit

/-! ## The exported operations of src/index.js -/

/-- `setData(key, value, ttl)` from src/index.js.  Returns the
operation outcome (`()` models the JS `undefined` return) together with
the successor breaker state. -/
def setData (cfg : RedisConfig) (port : StorePort) (s : RedisState)
    (key : String) (value : Json) (ttl : Nat) :
    Except Err Unit × RedisState :=
  if isAvailable s = false then (Except.ok (), s)
  else
    let prefixedKey := getKey cfg key
    let stringValue := encode value
    let res := if ttl ≠ 0 then port.setEx prefixedKey ttl stringValue
               else port.set prefixedKey stringValue
    match res with
    | Except.ok _ => (Except.ok (), s)
    | Except.error e => (Except.error e, recordFailure s)

/-- `getData(key, parseJson)` from src/index.js.  The JS `null` result
is modelled by `jNull`. -/
def getData (cfg : RedisConfig) (port : StorePort) (s : RedisState)
    (key : String) (parseJson : Bool) :
    Except Err Json × RedisState :=
  if isAvailable s = false then (Except.ok jNull, s)
  else
    match port.get (getKey cfg key) with
    | Except.error e => (Except.error e, recordFailure s)
    | Except.ok v =>
      match v with
      | none => (Except.ok jNull, s)
      | some str =>
        if str = "" then (Except.ok jNull, s)
        else (Except.ok (decode str parseJson), s)

/-- Result of a `getOrSet` call: the outcome (a `Json` or an exception;
`none` models `undefined`), the successor state, and how many times the
caller-supplied handler was invoked during the call. -/
structure GetOrSetOut : Type where
  result : Except Err (Option Json)
  state : RedisState
  handlerCalls : Nat

/-- `getOrSet(key, handler, ttl, parseJson)` from src/index.js.  The
handler is modelled by the outcome of each successive invocation
(`handler 0` is the first invocation).  The whole body is wrapped in a
`try` whose `catch` logs and runs `return await handler()` once more,
so a handler invoked inside the `try` that throws is invoked again by
the `catch`. -/
def getOrSet (cfg : RedisConfig) (port : StorePort) (s : RedisState)
    (key : String) (handler : Nat → Except Err (Option Json))
    (ttl : Nat) (parseJson : Bool) : GetOrSetOut :=
  if isAvailable s = false then
    match handler 0 with
    | Except.ok v => ⟨Except.ok v, s, 1⟩
    | Except.error _ =>
      match handler 1 with
      | Except.ok v => ⟨Except.ok v, s, 2⟩
      | Except.error e => ⟨Except.error e, s, 2⟩
  else
    match getData cfg port s key parseJson with
    | (Except.error _, s1) =>
      match handler 0 with
      | Except.ok v => ⟨Except.ok v, s1, 1⟩
      | Except.error e => ⟨Except.error e, s1, 1⟩
    | (Except.ok cachedData, s1) =>
      match cachedData with
      | jNull =>
        match handler 0 with
        | Except.error _ =>
          match handler 1 with
          | Except.ok v => ⟨Except.ok v, s1, 2⟩
          | Except.error e => ⟨Except.error e, s1, 2⟩
        | Except.ok freshData =>
          match freshData with
          | some fv =>
            if fv.isNull then ⟨Except.ok (some fv), s1, 1⟩
            else
              match setData cfg port s1 key fv ttl with
              | (Except.ok _, s2) => ⟨Except.ok (some fv), s2, 1⟩
              | (Except.error _, s2) =>
                match handler 1 with
                | Except.ok v => ⟨Except.ok v, s2, 2⟩
                | Except.error e => ⟨Except.error e, s2, 2⟩
          | none => ⟨Except.ok none, s1, 1⟩
      | cached => ⟨Except.ok (some cached), s1, 0⟩

/-- `deleteData(key)` from src/index.js. -/
def deleteData (cfg : RedisConfig) (port : StorePort) (s : RedisState)
    (key : String) : Except Err Nat × RedisState :=
  if isAvailable s = false then (Except.ok 0, s)
  else
    match port.del (getKey cfg key) with
    | Except.ok n => (Except.ok n, s)
    | Except.error e => (Except.error e, recordFailure s)

/-- `exists(key)` from src/index.js. -/
def existsData (cfg : RedisConfig) (port : StorePort) (s : RedisState)
    (key : String) : Except Err Bool × RedisState :=
  if isAvailable s = false then (Except.ok false, s)
  else
    match port.existsRaw (getKey cfg key) with
    | Except.ok r => (Except.ok (r == 1), s)
    | Except.error e => (Except.error e, recordFailure s)

/-- `setTTL(key, ttl)` from src/index.js. -/
def setTTL (cfg : RedisConfig) (port : StorePort) (s : RedisState)
    (key : String) (ttl : Nat) : Except Err Bool × RedisState :=
  if isAvailable s = false then (Except.ok false, s)
  else
    match port.expire (getKey cfg key) ttl with
    | Except.ok r => (Except.ok (r == 1), s)
    | Except.error e => (Except.error e, recordFailure s)

/-- `getTTL(key)` from src/index.js. -/
def getTTL (cfg : RedisConfig) (port : StorePort) (s : RedisState)
    (key : String) : Except Err Int × RedisState :=
  if isAvailable s = false then (Except.ok (-2), s)
  else
    match port.ttl (getKey cfg key) with
    | Except.ok r => (Except.ok r, s)
    | Except.error e => (Except.error e, recordFailure s)

/-- `publish(channel, message)` from src/index.js.  The channel is not
prefixed; the message goes through the same string-or-stringify
conversion as `setData`. -/
def publish (port : StorePort) (s : RedisState)
    (channel : String) (message : Json) : Except Err Unit × RedisState :=
  if isAvailable s = false then (Except.ok (), s)
  else
    match port.publishRaw channel (encode message) with
    | Except.ok _ => (Except.ok (), s)
    | Except.error e => (Except.error e, recordFailure s)

/-- `subscribe(channel, callback)` from src/index.js, as far as the
awaited `subscriber.subscribe` call is concerned. -/
def subscribe (port : StorePort) (s : RedisState)
    (channel : String) : Except Err Unit × RedisState :=
  if isAvailable s = false then (Except.ok (), s)
  else
    match port.subscribeRaw channel with
    | Except.ok _ => (Except.ok (), s)
    | Except.error e => (Except.error e, recordFailure s)

/-- The per-message wrapper `subscribe` registers around the caller's
callback: JSON-parse the incoming message, falling back to the raw
string. -/
def subscribeWrapper (message : String) : Json :=
  match parseJsonText message with
  | some j => j
  | none => jStr message

/-! ## Fixtures for concrete evaluations -/

/-- Example configuration (the library defaults). -/
def cfgEx : RedisConfig := { keyPrefixStr := "myapp:", defaultTtl := 3600 }

/-- A port on which every call succeeds; reads return the stored text
"7" for every key. -/
def portOk : StorePort where
  get := fun _ => Except.ok (some "7")
  setEx := fun _ _ _ => Except.ok ()
  set := fun _ _ => Except.ok ()
  del := fun _ => Except.ok 1
  existsRaw := fun _ => Except.ok 1
  expire := fun _ _ => Except.ok 1
  ttl := fun _ => Except.ok 42
  publishRaw := fun _ _ => Except.ok 1
  subscribeRaw := fun _ => Except.ok ()

/-- A port on which every call rejects. -/
def portFail : StorePort where
  get := fun _ => Except.error "boom"
  setEx := fun _ _ _ => Except.error "boom"
  set := fun _ _ => Except.error "boom"
  del := fun _ => Except.error "boom"
  existsRaw := fun _ => Except.error "boom"
  expire := fun _ _ => Except.error "boom"
  ttl := fun _ => Except.error "boom"
  publishRaw := fun _ _ => Except.error "boom"
  subscribeRaw := fun _ => Except.error "boom"

/-- A port whose reads miss and whose writes reject. -/
def portWriteFail : StorePort where
  get := fun _ => Except.ok none
  setEx := fun _ _ _ => Except.error "boom"
  set := fun _ _ => Except.error "boom"
  del := fun _ => Except.ok 0
  existsRaw := fun _ => Except.ok 0
  expire := fun _ _ => Except.ok 0
  ttl := fun _ => Except.ok (-2)
  publishRaw := fun _ _ => Except.ok 0
  subscribeRaw := fun _ => Except.ok ()

/-- A port on which every call succeeds and every read misses. -/
def portMiss : StorePort where
  get := fun _ => Except.ok none
  setEx := fun _ _ _ => Except.ok ()
  set := fun _ _ => Except.ok ()
  del := fun _ => Except.ok 0
  existsRaw := fun _ => Except.ok 0
  expire := fun _ _ => Except.ok 0
  ttl := fun _ => Except.ok (-2)
  publishRaw := fun _ _ => Except.ok 0
  subscribeRaw := fun _ => Except.ok ()

/-- A port whose reads return the empty string as the stored value. -/
def portEmptyStr : StorePort where
  get := fun _ => Except.ok (some "")
  setEx := fun _ _ _ => Except.ok ()
  set := fun _ _ => Except.ok ()
  del := fun _ => Except.ok 1
  existsRaw := fun _ => Except.ok 1
  expire := fun _ _ => Except.ok 1
  ttl := fun _ => Except.ok 42
  publishRaw := fun _ _ => Except.ok 1
  subscribeRaw := fun _ => Except.ok ()

/-- A handler that always returns the string value "x". -/
def handlerConst : Nat → Except Err (Option Json) :=
  fun _ => Except.ok (some (jStr "x"))

/-- A handler whose i-th invocation returns the number i. -/
def handlerSeq : Nat → Except Err (Option Json) :=
  fun i => Except.ok (some (jNum (Int.ofNat i)))

/-- A handler whose first invocation throws and whose later invocations
return the string "X2". -/
def handlerFlaky : Nat → Except Err (Option Json) :=
  fun i => if i = 0 then Except.error "computeBoom" else Except.ok (some (jStr "X2"))

/-- A closed, zero-failure state whose client is not ready. -/
def closedNotReady : RedisState :=
  { clientReady := false, isCircuitOpen := false, failureCount := 0,
    pendingRecoveries := 0 }

/-- An open-circuit state whose client is not ready. -/
def openNotReady : RedisState :=
  { clientReady := false, isCircuitOpen := true, failureCount := 3,
    pendingRecoveries := 1 }

/-- An open-circuit state whose client is ready. -/
def openReady : RedisState :=
  { clientReady := true, isCircuitOpen := true, failureCount := 3,
    pendingRecoveries := 1 }

/-! ## Claim theorems -/

/-- C5: starting Closed with zero failures, after `n` recorded failures
the circuit is open exactly when `n` has reached the threshold 3 (so the
Closed-to-Open transition happens within the third failure and only
there), the failure count reads `n`, exactly one recovery timer is
scheduled once open (failures while already open do not re-schedule it),
and `isAvailable` is false from the opening failure on (nothing but the
recovery timer clears the flag). -/
theorem c5_open_edge_triggered_once (n : Nat) :
    ((runFails n initState).isCircuitOpen = decide (3 ≤ n)) ∧
    ((runFails n initState).failureCount = n) ∧
    ((runFails n initState).pendingRecoveries = if 3 ≤ n then 1 else 0) ∧
    (3 ≤ n → isAvailable (runFails n initState) = false) := by
  induction n with
  | zero => simp [runFails, initState, isAvailable]
  | succ m ih =>
    obtain ⟨h1, h2, h3, h4⟩ := ih
    have hstep : runFails (m + 1) initState = recordFailure (runFails m initState) := rfl
    rw [hstep]
    simp only [recordFailure, openCircuit, FAILURE_THRESHOLD, h2]
    by_cases hm1 : 3 ≤ m + 1
    · by_cases hm0 : 3 ≤ m
      · have hopen : (runFails m initState).isCircuitOpen = true := by
          rw [h1]; simp [hm0]
        simp [hm1, hm0, hopen, h3, h2, isAvailable]
      · have hopen : (runFails m initState).isCircuitOpen = false := by
          rw [h1]; simp [hm0]
        simp [hm1, hm0, hopen, h3, h2, isAvailable]
    · have hm0 : ¬ 3 ≤ m := by omega
      have hopen : (runFails m initState).isCircuitOpen = false := by
        rw [h1]; simp [hm0]
      simp [hm1, hm0, hopen, h3, h2, isAvailable]

/-- C5 witness: at the third failure the breaker reports unavailable. -/
theorem c5_witness : isAvailable (runFails 3 initState) = false :=
  (c5_open_edge_triggered_once 3).2.2.2 (by decide)

/-- C6 counterexample: an open state with a non-ready client is
reachable by three recorded failures, and after the recovery timer fires
`failureCount` reads 0 but `isAvailable()` returns false, not true as
the claim states, because `isAvailable` also requires
`redisClient.isReady`. -/
theorem c6_counterexample :
    runFails 3 closedNotReady = openNotReady ∧
    (recoveryElapsed openNotReady).failureCount = 0 ∧
    isAvailable (recoveryElapsed openNotReady) = false := by decide

/-- C6 (amended): after the recovery window elapses following an Open
transition, the circuit flag is cleared and `failureCount` reads 0 with
no caller action; `isAvailable()` returns true exactly when the
underlying client reports ready. -/
theorem c6_after_recovery (s : RedisState) (h : s.isCircuitOpen = true) :
    (recoveryElapsed s).failureCount = 0 ∧ (recoveryElapsed s).isCircuitOpen = false ∧
    isAvailable (recoveryElapsed s) = s.clientReady := by
  simp [recoveryElapsed, isAvailable]

/-- C6 witness: recovery on an open state with a ready client. -/
theorem c6_witness :
    (recoveryElapsed openReady).failureCount = 0 ∧
    (recoveryElapsed openReady).isCircuitOpen = false ∧
    isAvailable (recoveryElapsed openReady) = true :=
  c6_after_recovery openReady rfl

/-- C4: evaluation of the code at the failing input.  A successful
`getData` while Closed leaves `failureCount` at 1 instead of resetting
it to 0, and the trace setData-fail, getData-ok, setData-fail,
getData-ok, setData-fail (three failures, none of them consecutive)
opens the circuit. -/
theorem c4_code_eval :
    ((getData cfgEx portOk ⟨true, false, 1, 0⟩ "k" true).2).failureCount = 1 ∧
    ((setData cfgEx portFail
      ((getData cfgEx portOk
        ((setData cfgEx portFail
          ((getData cfgEx portOk
            ((setData cfgEx portFail initState "k" (jStr "x") 60).2)
            "k" true).2)
          "k" (jStr "x") 60).2)
        "k" true).2)
      "k" (jStr "x") 60).2).isCircuitOpen = true := by
  constructor <;> rfl

/-- C1 counterexample: with the store available, a cache miss, a
handler that returns the string "x", and a failing cache write, one call
to `getOrSet` invokes the handler twice — the catch block re-invokes it
— so "at most once" is false. -/
theorem c1_counterexample :
    (getOrSet cfgEx portWriteFail initState "k" handlerConst 60 true).handlerCalls = 2 :=
  rfl

/-- C1 (amended): during one call to `getOrSet` the caller-supplied
handler is invoked at most twice, not at most once: the catch-all block
runs `return await handler()` once more whenever the try block throws
after the first invocation (handler exception or cache-write failure). -/
theorem c1_handler_at_most_twice (cfg : RedisConfig) (port : StorePort) (s : RedisState)
    (key : String) (handler : Nat → Except Err (Option Json)) (ttl : Nat)
    (parseJson : Bool) :
    (getOrSet cfg port s key handler ttl parseJson).handlerCalls ≤ 2 := by
  unfold getOrSet
  repeat' split
  all_goals simp

/-- C2 counterexample: store available, cache read misses, the first
handler invocation throws — but the exception does not propagate:
`getOrSet` catches it, invokes the handler a second time and returns the
second result. -/
theorem c2_counterexample :
    (getOrSet cfgEx portMiss initState "k" handlerFlaky 60 true).result
      = Except.ok (some (jStr "X2")) ∧
    (getOrSet cfgEx portMiss initState "k" handlerFlaky 60 true).handlerCalls = 2 := by
  constructor <;> rfl

/-- C2 (amended): when the store is available, the cache read returns
null, and the first handler invocation throws, `getOrSet` catches the
exception, invokes the handler a second time, and returns that second
invocation's outcome (its value, or its exception if it throws too). -/
theorem c2_compute_throw_retried (cfg : RedisConfig) (port : StorePort) (s : RedisState)
    (key : String) (handler : Nat → Except Err (Option Json)) (ttl : Nat)
    (parseJson : Bool) (e : Err) (hav : isAvailable s = true)
    (hmiss : (getData cfg port s key parseJson).1 = Except.ok jNull)
    (h0 : handler 0 = Except.error e) :
    (getOrSet cfg port s key handler ttl parseJson).result = handler 1 ∧
    (getOrSet cfg port s key handler ttl parseJson).handlerCalls = 2 := by
  unfold getOrSet
  rw [if_neg (by simp [hav])]
  rcases hget : getData cfg port s key parseJson with ⟨r, s1⟩
  rw [hget] at hmiss
  simp only at hmiss
  subst hmiss
  cases h1 : handler 1 with
  | ok v => simp [h0, h1]
  | error e2 => simp [h0, h1]

/-- C2 witness: the amended behavior at the concrete counterexample
input. -/
theorem c2_witness :
    (getOrSet cfgEx portMiss initState "k" handlerFlaky 60 true).result = handlerFlaky 1 ∧
    (getOrSet cfgEx portMiss initState "k" handlerFlaky 60 true).handlerCalls = 2 :=
  c2_compute_throw_retried cfgEx portMiss initState "k" handlerFlaky 60 true
    "computeBoom" rfl rfl rfl

/-- C3 counterexample: the handler returns 0 on its first invocation
and 1 on its second; with a miss and a failing cache write, `getOrSet`
returns 1 — the second invocation's value — not the value the first
(cache-miss-path) invocation of compute produced. -/
theorem c3_counterexample :
    (getOrSet cfgEx portWriteFail initState "k" handlerSeq 60 true).result
      = Except.ok (some (jNum 1)) ∧
    (getOrSet cfgEx portWriteFail initState "k" handlerSeq 60 true).result
      ≠ Except.ok (some (jNum 0)) ∧
    (getOrSet cfgEx portWriteFail initState "k" handlerSeq 60 true).handlerCalls = 2 := by
  refine ⟨rfl, ?_, rfl⟩
  intro h
  rw [show (getOrSet cfgEx portWriteFail initState "k" handlerSeq 60 true).result
    = Except.ok (some (jNum 1)) from rfl] at h
  simp at h

/-- C3 (amended): when the store is available, the read misses, the
first handler invocation returns a non-null non-undefined value, and the
cache write fails, the failure does not propagate as such; instead
`getOrSet` invokes the handler a second time and returns that second
invocation's outcome. -/
theorem c3_write_failure_retries_handler (cfg : RedisConfig) (port : StorePort)
    (s : RedisState) (key : String) (handler : Nat → Except Err (Option Json))
    (ttl : Nat) (parseJson : Bool) (fv : Json) (e : Err)
    (hav : isAvailable s = true)
    (hmiss : (getData cfg port s key parseJson).1 = Except.ok jNull)
    (h0 : handler 0 = Except.ok (some fv))
    (hfv : fv.isNull = false)
    (hset : (setData cfg port (getData cfg port s key parseJson).2 key fv ttl).1
      = Except.error e) :
    (getOrSet cfg port s key handler ttl parseJson).result = handler 1 ∧
    (getOrSet cfg port s key handler ttl parseJson).handlerCalls = 2 := by
  unfold getOrSet
  rw [if_neg (by simp [hav])]
  rcases hget : getData cfg port s key parseJson with ⟨r, s1⟩
  rw [hget] at hmiss hset
  simp only at hmiss
  subst hmiss
  rcases hsetp : setData cfg port s1 key fv ttl with ⟨sr, s2⟩
  rw [hsetp] at hset
  simp only at hset
  subst hset
  cases h1 : handler 1 with
  | ok v => simp [h0, hfv, hsetp, h1]
  | error e2 => simp [h0, hfv, hsetp, h1]

/-- C3 witness: the amended behavior at the concrete counterexample
input. -/
theorem c3_witness :
    (getOrSet cfgEx portWriteFail initState "k" handlerSeq 60 true).result = handlerSeq 1 ∧
    (getOrSet cfgEx portWriteFail initState "k" handlerSeq 60 true).handlerCalls = 2 :=
  c3_write_failure_retries_handler cfgEx portWriteFail initState "k" handlerSeq 60 true
    (jNum 0) "boom" rfl rfl rfl rfl rfl

/-- C7 counterexample: the string "1" is a JSON-serializable value;
encoding passes it through unchanged and decoding with parseJson set
parses it as the number 1, so the round trip does not return the
original string. -/
theorem c7_counterexample :
    encode (jStr "1") = "1" ∧
    decode (encode (jStr "1")) true = jNum 1 ∧
    decode (encode (jStr "1")) true ≠ jStr "1" := by
  refine ⟨rfl, rfl, ?_⟩
  intro h
  rw [show decode (encode (jStr "1")) true = jNum 1 from rfl] at h
  exact Json.noConfusion h

/-- C7 (amended): `encode` passes every string through unchanged; the
round trip `decode (encode v) true = v` holds for every JSON value that
is not a string, and for a string exactly when its contents do not parse
as JSON (a string that is itself a JSON text decodes to the parsed value
instead). -/
theorem c7_roundtrip_amended :
    (∀ s : String, encode (jStr s) = s) ∧
    (∀ v : Json, (∀ s, v ≠ jStr s) → decode (encode v) true = v) ∧
    (∀ s : String, parseJsonText s = none → decode (encode (jStr s)) true = jStr s) := by
  refine ⟨fun s => rfl, ?_, ?_⟩
  · intro v hv
    have henc : encode v = stringify v := by
      cases v with
      | jStr s => exact absurd rfl (hv s)
      | jNull => rfl
      | jBool b => rfl
      | jNum n => rfl
      | jArr es => rfl
      | jObj fs => rfl
    rw [henc]
    simp [decode, parseJsonText_stringify v]
  · intro s hs
    simp [encode, decode, hs]

/-- C7 witness: the round trip on a concrete non-string value and on a
concrete non-JSON string. -/
theorem c7_witness :
    decode (encode (jArr [jNum 5, jStr "a"])) true = jArr [jNum 5, jStr "a"] ∧
    decode (encode (jStr "xy")) true = jStr "xy" :=
  ⟨c7_roundtrip_amended.2.1 (jArr [jNum 5, jStr "a"]) (fun s h => Json.noConfusion h),
   c7_roundtrip_amended.2.2 "xy" rfl⟩

/-- C8: while the circuit is Closed and the client ready, every
store-touching operation whose backing call rejects first records a
breaker failure (`recordFailure`: the counter increments, and the
circuit opens when the incremented count reaches the threshold 3) and
then re-raises the same error to its caller. -/
theorem c8_failure_recorded_then_reraised (cfg : RedisConfig) (port : StorePort)
    (s : RedisState) (key ch : String) (value message : Json) (ttl : Nat)
    (parseJson : Bool) (e : Err) (hav : isAvailable s = true) :
    ((recordFailure s).failureCount = s.failureCount + 1) ∧
    (3 ≤ s.failureCount + 1 → (recordFailure s).isCircuitOpen = true) ∧
    (port.get (getKey cfg key) = Except.error e →
      getData cfg port s key parseJson = (Except.error e, recordFailure s)) ∧
    (port.setEx (getKey cfg key) ttl (encode value) = Except.error e →
      port.set (getKey cfg key) (encode value) = Except.error e →
      setData cfg port s key value ttl = (Except.error e, recordFailure s)) ∧
    (port.del (getKey cfg key) = Except.error e →
      deleteData cfg port s key = (Except.error e, recordFailure s)) ∧
    (port.existsRaw (getKey cfg key) = Except.error e →
      existsData cfg port s key = (Except.error e, recordFailure s)) ∧
    (port.expire (getKey cfg key) ttl = Except.error e →
      setTTL cfg port s key ttl = (Except.error e, recordFailure s)) ∧
    (port.ttl (getKey cfg key) = Except.error e →
      getTTL cfg port s key = (Except.error e, recordFailure s)) ∧
    (port.publishRaw ch (encode message) = Except.error e →
      publish port s ch message = (Except.error e, recordFailure s)) ∧
    (port.subscribeRaw ch = Except.error e →
      subscribe port s ch = (Except.error e, recordFailure s)) := by
  refine ⟨?_, ?_, ?_, ?_, ?_, ?_, ?_, ?_, ?_, ?_⟩
  · simp only [recordFailure, openCircuit, FAILURE_THRESHOLD]
    split_ifs <;> simp
  · intro h3
    by_cases ho : s.isCircuitOpen <;>
      simp [recordFailure, openCircuit, FAILURE_THRESHOLD, h3, ho]
  · intro h
    simp [getData, hav, h]
  · intro h1 h2
    by_cases httl : ttl = 0 <;> simp [setData, hav, httl, h1, h2]
  · intro h
    simp [deleteData, hav, h]
  · intro h
    simp [existsData, hav, h]
  · intro h
    simp [setTTL, hav, h]
  · intro h
    simp [getTTL, hav, h]
  · intro h
    simp [publish, hav, h]
  · intro h
    simp [subscribe, hav, h]

/-- C8 witness: three of the operations at a concrete failing port. -/
theorem c8_witness :
    getData cfgEx portFail initState "k" true
      = (Except.error "boom", recordFailure initState) ∧
    setData cfgEx portFail initState "k" (jStr "x") 60
      = (Except.error "boom", recordFailure initState) ∧
    subscribe portFail initState "ch"
      = (Except.error "boom", recordFailure initState) :=
  ⟨(c8_failure_recorded_then_reraised cfgEx portFail initState "k" "ch" (jStr "x")
      (jStr "x") 60 true "boom" rfl).2.2.1 rfl,
   (c8_failure_recorded_then_reraised cfgEx portFail initState "k" "ch" (jStr "x")
      (jStr "x") 60 true "boom" rfl).2.2.2.1 rfl rfl,
   (c8_failure_recorded_then_reraised cfgEx portFail initState "k" "ch" (jStr "x")
      (jStr "x") 60 true "boom" rfl).2.2.2.2.2.2.2.2.2 rfl⟩

/-- C9: whenever `isAvailable()` is false, every direct operation
returns its per-operation fallback with the state unchanged and without
raising — and, since the equations hold for every port, without
contacting the store: `getData` returns null, `setData` is a no-op,
`deleteData` returns 0, `existsData` and `setTTL` return false, `getTTL`
returns -2, and `getOrSet` invokes the handler directly and returns its
result. -/
theorem c9_unavailable_fallbacks (cfg : RedisConfig) (port : StorePort) (s : RedisState)
    (key : String) (value : Json) (ttl : Nat) (parseJson : Bool)
    (handler : Nat → Except Err (Option Json))
    (hun : isAvailable s = false) :
    getData cfg port s key parseJson = (Except.ok jNull, s) ∧
    setData cfg port s key value ttl = (Except.ok (), s) ∧
    deleteData cfg port s key = (Except.ok 0, s) ∧
    existsData cfg port s key = (Except.ok false, s) ∧
    setTTL cfg port s key ttl = (Except.ok false, s) ∧
    getTTL cfg port s key = (Except.ok (-2), s) ∧
    (∀ v, handler 0 = Except.ok v →
      getOrSet cfg port s key handler ttl parseJson = ⟨Except.ok v, s, 1⟩) := by
  refine ⟨by simp [getData, hun], by simp [setData, hun], by simp [deleteData, hun],
    by simp [existsData, hun], by simp [setTTL, hun], by simp [getTTL, hun], ?_⟩
  intro v hv
  simp [getOrSet, hun, hv]

/-- C9 witness: the fallbacks at a concrete open-circuit state; the
port rejects every call, yet nothing raises. -/
theorem c9_witness :
    getTTL cfgEx portFail openReady "k" = (Except.ok (-2), openReady) ∧
    getOrSet cfgEx portFail openReady "k" handlerConst 60 true
      = ⟨Except.ok (some (jStr "x")), openReady, 1⟩ :=
  ⟨(c9_unavailable_fallbacks cfgEx portFail openReady "k" (jStr "x") 60 true
      handlerConst rfl).2.2.2.2.2.1,
   (c9_unavailable_fallbacks cfgEx portFail openReady "k" (jStr "x") 60 true
      handlerConst rfl).2.2.2.2.2.2 (some (jStr "x")) rfl⟩

/-- C10: when the store returns the empty string for a present key,
`getData` returns null (`if (!value) return null` — the empty string is
falsy), and `getOrSet` therefore treats it as a cache miss and invokes
the handler at least once. -/
theorem c10_empty_string_treated_as_miss (cfg : RedisConfig) (port : StorePort)
    (s : RedisState) (key : String) (parseJson : Bool) (ttl : Nat)
    (handler : Nat → Except Err (Option Json))
    (hav : isAvailable s = true)
    (hget : port.get (getKey cfg key) = Except.ok (some "")) :
    getData cfg port s key parseJson = (Except.ok jNull, s) ∧
    1 ≤ (getOrSet cfg port s key handler ttl parseJson).handlerCalls := by
  have h1 : getData cfg port s key parseJson = (Except.ok jNull, s) := by
    simp [getData, hav, hget]
  refine ⟨h1, ?_⟩
  unfold getOrSet
  rw [if_neg (by simp [hav]), h1]
  repeat' split
  all_goals simp_all

/-- C10 witness: the empty-string behavior at a concrete port. -/
theorem c10_witness :
    getData cfgEx portEmptyStr initState "k" true = (Except.ok jNull, initState) ∧
    1 ≤ (getOrSet cfgEx portEmptyStr initState "k" handlerConst 60 true).handlerCalls :=
  c10_empty_string_treated_as_miss cfgEx portEmptyStr initState "k" true 60
    handlerConst rfl rfl

end RedisHelper
